import Mathlib

/-!
Verification development for the `aeolus` repository (statistics functions in
`aeolus/calc/stats.py` and the constants loader in `aeolus/const.py`).

The Python code is shallowly embedded:
  * numeric array data becomes lists of rationals (missing values become
    `Option` where the code handles NaNs);
  * physical units become a free syntactic algebra (`one`, `base`, `mul`, `div`),
    mirroring how units are combined by cube arithmetic;
  * exceptions become `Except Err` with a structured error type whose
    constructors carry the data that the Python error messages interpolate;
  * the filesystem seen by the constants loader becomes a function from
    (directory, file stem) to an optional parsed JSON document;
  * Python `dict` insertion-order semantics (`d[k] = v`, `d.update(e)`) are
    embedded as association-list operations that replace in place.

Repository code imported by `stats.py`/`const.py` but not part of the two
embedded files (`aeolus.calc.calculus.integrate`, `aeolus.coord.ensure_bounds`,
`aeolus.coord.area_weights_cube`, `aeolus.model.um`) is modelled from the
specification; each such definition is marked `Modelled from the spec` in its
doc comment.
-/

namespace Aeolus

/-- Free syntactic representation of physical units, as combined by cube
arithmetic: a named base unit, the dimensionless unit, products and quotients. -/
inductive Units where
  | one : Units
  | base : String → Units
  | mul : Units → Units → Units
  | div : Units → Units → Units
  deriving DecidableEq, Repr

/-- Structured errors raised by the embedded code.  Each constructor carries
the data interpolated into the corresponding Python exception message. -/
inductive Err where
  | load (set directory : String)
  | attr (obj attrName : String)
  | coordNotFound (name : String)
  | shapeMismatch
  | valueErr (msg : String)
  | unrecognisedWeight (tyName : String)
  deriving DecidableEq, Repr

/-- Rendering of the structured errors to the Python message texts
(`LoadError` from `aeolus/const.py` and the `ValueError` in `vertical_mean`). -/
def Err.message : Err → String
  | .load s d => "JSON file for " ++ s ++ " configuration not found, check the directory: " ++ d
  | .attr o a => "module " ++ o ++ " has no attribute " ++ a
  | .coordNotFound n => "coordinate not found: " ++ n
  | .shapeMismatch => "operands could not be broadcast together"
  | .valueErr m => m
  | .unrecognisedWeight t => "unrecognised type of weight_by: " ++ t

/-- Whether an `Except` value is a success. -/
def exceptIsOk {α : Type} : Except Err α → Bool
  | .ok _ => true
  | .error _ => false

/-- A scalar cube: the result of collapsing all axes, or one of the constant
cubes built by `aeolus/const.py` (`ScalarCube`): data value, units, name. -/
structure SCube where
  data : ℚ
  units : Units
  name : String
  deriving DecidableEq, Repr

/-- Division of two scalar cubes, as `iris` cube division: data quotient,
units quotient, and the name reset (iris names the result `unknown`). -/
def SCube.div (a b : SCube) : SCube :=
  ⟨a.data / b.data, Units.div a.units b.units, "unknown"⟩

/-- `cube.rename(n)`. -/
def SCube.rename (c : SCube) (n : String) : SCube := { c with name := n }

/-- A coordinate: name, point values, optional bounds (interval edges), and
units. -/
structure Coord where
  name : String
  points : List ℚ
  bounds : Option (List (ℚ × ℚ))
  units : Units
  deriving DecidableEq, Repr

/-- The coordinate-name mapping object: abstract axis roles `x`/`y`/`z`/`t`
mapped to concrete coordinate names. -/
structure Model where
  x : String
  y : String
  z : String
  t : String
  deriving DecidableEq, Repr

/-- Modelled from the spec: the default `um` model from `aeolus.model`
(not under `src/`), "an external lookup object mapping abstract axis roles
{x, y, z, t} to the concrete coordinate names used by a particular dataset
convention". -/
def um : Model := ⟨"longitude", "latitude", "level_height", "time"⟩

/-! ### Python `dict` semantics as association lists

Python dicts preserve insertion order; assigning to an existing key replaces
the value in place, assigning a fresh key appends.  `d.update(e)` assigns each
entry of `e` in order. -/

/-- First-match lookup, the value observed by `d[k]` / `getattr`. -/
def dictGet {α : Type} : List (String × α) → String → Option α
  | [], _ => Option.none
  | p :: ps, k => if p.1 = k then some p.2 else dictGet ps k

/-- The key list of a dict. -/
def dictKeys {α : Type} (d : List (String × α)) : List String := d.map Prod.fst

/-- Python `d[k] = v`: replace in place when the key exists, append otherwise. -/
def pyInsert {α : Type} (d : List (String × α)) (k : String) (v : α) : List (String × α) :=
  if (dictGet d k).isSome then d.map (fun p => if p.1 = k then (k, v) else p)
  else d ++ [(k, v)]

/-- Python `d.update(e)`: assign each entry of `e` in order. -/
def pyUpdate {α : Type} (d e : List (String × α)) : List (String × α) :=
  e.foldl (fun acc p => pyInsert acc p.1 p.2) d

/-! ### The constants module (`aeolus/const.py`) -/

/-- One record of a constants JSON file: required `name` and `value`, optional
`units` string. -/
structure VarEntry where
  name : String
  value : ℚ
  units : Option String
  deriving DecidableEq, Repr

/-- The non-`name` payload of a JSON record, the dict value stored by
`_read_const_file`. -/
structure ConstDef where
  value : ℚ
  units : Option String
  deriving DecidableEq, Repr

/-- The filesystem seen by the loader: directory path and file stem to the
parsed content of `<directory>/<stem>.json`, `none` when the file is absent. -/
def FS : Type := String → String → Option (List VarEntry)

/-- The default constants directory `CONST_DIR` (the package's
`phys_const_store` folder). -/
def constDir : String := "phys_const_store"

/-- `_read_const_file(name, directory)`: parse the JSON list of records into a
dict keyed by `name` (later records with the same name overwrite earlier ones);
a missing file raises `LoadError` naming the set and the directory. -/
def read_const_file (fs : FS) (name : String) (directory : String := constDir) :
    Except Err (List (String × ConstDef)) :=
  match fs directory name with
  | some entries =>
      .ok (entries.foldl (fun acc v => pyInsert acc v.name ⟨v.value, v.units⟩) [])
  | Option.none => .error (.load name directory)

/-- `ConstContainer._convert_to_iris_cubes` on one field: the raw
`{value, units}` dict becomes a scalar cube with data = value, units = the
`units` string or dimensionless, and name = the field name. -/
def constToCube (k : String) (d : ConstDef) : SCube :=
  ⟨d.value, (match d.units with | some u => Units.base u | Option.none => Units.one), k⟩

/-- The constants record produced by `init_const`: the dataclass field names
(`__dataclass_fields__`, in merged-dict order) and the instance attributes
after `__post_init__` ran (each field converted to a scalar cube, plus the
derived `dry_air_gas_constant` attribute). -/
structure ConstRec where
  dcFields : List String
  attrs : List (String × SCube)
  deriving DecidableEq, Repr

/-- `init_const(name, directory)`: read `general` from the *default* directory
(the call on line 111 of `const.py` passes no directory), read the named set
from the supplied directory (default directory when none is supplied), merge
with named-set precedence, build the frozen dataclass whose fields are the
merged keys, convert every field to a scalar cube, then derive
`dry_air_gas_constant = molar_gas_constant / dry_air_molecular_weight`
(an `AttributeError` when either operand field is absent). -/
def init_const (fs : FS) (name : String) (directory : Option String := Option.none) :
    Except Err ConstRec := do
  let general ← read_const_file fs "general"
  let specific ← read_const_file fs name (directory.getD constDir)
  let merged := pyUpdate general specific
  let fields := merged.map (fun p => (p.1, constToCube p.1 p.2))
  let clsName := name.capitalize ++ "Constants"
  match dictGet fields "molar_gas_constant" with
  | Option.none => .error (.attr clsName "molar_gas_constant")
  | some cm =>
    match dictGet fields "dry_air_molecular_weight" with
    | Option.none => .error (.attr clsName "dry_air_molecular_weight")
    | some cd =>
      .ok ⟨merged.map Prod.fst,
           pyInsert fields "dry_air_gas_constant"
             (SCube.rename (SCube.div cm cd) "dry_air_gas_constant")⟩

/-- Attribute access on the result of `init_const`, `none` when construction
failed or the attribute is absent. -/
def recAttr (e : Except Err ConstRec) (k : String) : Option SCube :=
  match e with
  | .ok r => dictGet r.attrs k
  | .error _ => Option.none

/-! ### Dict lemmas -/

theorem dictGet_append {α : Type} (d e : List (String × α)) (k : String) :
    dictGet (d ++ e) k =
      (match dictGet d k with | some v => some v | Option.none => dictGet e k) := by
  induction d with
  | nil => simp [dictGet]
  | cons p ps ih =>
      by_cases h : p.1 = k <;> simp [dictGet, h, ih]

theorem dictGet_replace_self {α : Type} (d : List (String × α)) (k : String) (v : α) :
    dictGet (d.map (fun p => if p.1 = k then (k, v) else p)) k =
      (if (dictGet d k).isSome then some v else Option.none) := by
  induction d with
  | nil => simp [dictGet]
  | cons p ps ih =>
      by_cases h : p.1 = k <;> simp [dictGet, h, ih]

theorem dictGet_replace_ne {α : Type} (d : List (String × α)) (k k' : String) (v : α)
    (h : k' ≠ k) :
    dictGet (d.map (fun p => if p.1 = k then (k, v) else p)) k' = dictGet d k' := by
  induction d with
  | nil => simp [dictGet]
  | cons p ps ih =>
      by_cases hp : p.1 = k
      · simp [dictGet, hp, Ne.symm h, ih]
      · by_cases hp' : p.1 = k' <;> simp [dictGet, hp, hp', ih, h]

theorem dictGet_pyInsert_self {α : Type} (d : List (String × α)) (k : String) (v : α) :
    dictGet (pyInsert d k v) k = some v := by
  unfold pyInsert
  by_cases h : (dictGet d k).isSome
  · simp [h, dictGet_replace_self]
  · simp [h, dictGet_append]
    cases hd : dictGet d k with
    | none => simp [dictGet]
    | some w => simp [hd] at h

theorem dictGet_pyInsert_ne {α : Type} (d : List (String × α)) (k k' : String) (v : α)
    (h : k' ≠ k) :
    dictGet (pyInsert d k v) k' = dictGet d k' := by
  unfold pyInsert
  by_cases hs : (dictGet d k).isSome
  · simp [hs, dictGet_replace_ne _ _ _ _ h]
  · simp [hs, dictGet_append]
    cases hd : dictGet d k' with
    | none => simp [dictGet, Ne.symm h]
    | some w => simp

theorem mem_dictKeys_iff_isSome {α : Type} (d : List (String × α)) (k : String) :
    k ∈ dictKeys d ↔ (dictGet d k).isSome := by
  induction d with
  | nil => simp [dictKeys, dictGet]
  | cons p ps ih =>
      show k ∈ p.1 :: dictKeys ps ↔ _
      by_cases h : p.1 = k
      · simp [dictGet, h]
      · simp [dictGet, h, List.mem_cons, Ne.symm h, ih]

theorem dictKeys_replace {α : Type} (d : List (String × α)) (k : String) (v : α) :
    dictKeys (d.map (fun p => if p.1 = k then (k, v) else p)) = dictKeys d := by
  induction d with
  | nil => rfl
  | cons p ps ih =>
      simp only [List.map_cons, dictKeys] at ih ⊢
      by_cases h : p.1 = k <;> simp [h, ih]

theorem mem_dictKeys_pyInsert {α : Type} (d : List (String × α)) (k k' : String) (v : α) :
    k' ∈ dictKeys (pyInsert d k v) ↔ k' ∈ dictKeys d ∨ k' = k := by
  unfold pyInsert
  by_cases hs : (dictGet d k).isSome
  · rw [if_pos hs, dictKeys_replace]
    constructor
    · exact Or.inl
    · rintro (h | rfl)
      · exact h
      · exact (mem_dictKeys_iff_isSome d k').mpr hs
  · rw [if_neg hs]
    simp [dictKeys]

theorem mem_dictKeys_pyUpdate {α : Type} (e d : List (String × α)) (k : String) :
    k ∈ dictKeys (pyUpdate d e) ↔ k ∈ dictKeys d ∨ k ∈ dictKeys e := by
  induction e generalizing d with
  | nil => simp [pyUpdate, dictKeys]
  | cons p ps ih =>
      show k ∈ dictKeys (pyUpdate (pyInsert d p.1 p.2) ps) ↔ _
      rw [ih, mem_dictKeys_pyInsert]
      simp [dictKeys]
      tauto

theorem dictGet_pyUpdate_of_not_mem {α : Type} (e d : List (String × α)) (k : String)
    (h : k ∉ dictKeys e) :
    dictGet (pyUpdate d e) k = dictGet d k := by
  induction e generalizing d with
  | nil => rfl
  | cons p ps ih =>
      have hk : k ≠ p.1 := by
        intro hk; exact h (by simp [dictKeys, hk])
      have hps : k ∉ dictKeys ps := by
        intro hk; exact h (by simp [dictKeys] at hk ⊢; exact Or.inr hk)
      show dictGet (pyUpdate (pyInsert d p.1 p.2) ps) k = _
      rw [ih _ hps, dictGet_pyInsert_ne _ _ _ _ hk]

theorem dictGet_pyUpdate_of_mem {α : Type} (e d : List (String × α)) (k : String)
    (hnd : (dictKeys e).Nodup) (hk : k ∈ dictKeys e) :
    dictGet (pyUpdate d e) k = dictGet e k := by
  induction e generalizing d with
  | nil => simp [dictKeys] at hk
  | cons p ps ih =>
      show dictGet (pyUpdate (pyInsert d p.1 p.2) ps) k = _
      simp only [dictKeys, List.map_cons, List.nodup_cons] at hnd
      rcases (by simpa [dictKeys] using hk : k = p.1 ∨ k ∈ dictKeys ps) with rfl | hmem
      · rw [dictGet_pyUpdate_of_not_mem _ _ _ hnd.1, dictGet_pyInsert_self]
        simp [dictGet]
      · have hne : k ≠ p.1 := fun h => hnd.1 (h ▸ hmem)
        rw [ih _ hnd.2 hmem]
        simp [dictGet, Ne.symm hne, hne]

theorem dictKeys_pyInsert_nodup {α : Type} (d : List (String × α)) (k : String) (v : α)
    (h : (dictKeys d).Nodup) : (dictKeys (pyInsert d k v)).Nodup := by
  unfold pyInsert
  by_cases hs : (dictGet d k).isSome
  · rw [if_pos hs, dictKeys_replace]; exact h
  · rw [if_neg hs]
    have hk : k ∉ dictKeys d := fun hm => hs ((mem_dictKeys_iff_isSome d k).mp hm)
    simp only [dictKeys, List.map_append, List.map_cons, List.map_nil]
    refine (List.nodup_append).mpr ⟨h, List.nodup_singleton _, ?_⟩
    intro a ha hb
    simp at hb
    subst hb
    exact hk ha

theorem dictKeys_pyUpdate_nodup {α : Type} (e d : List (String × α))
    (h : (dictKeys d).Nodup) : (dictKeys (pyUpdate d e)).Nodup := by
  induction e generalizing d with
  | nil => exact h
  | cons p ps ih =>
      exact ih _ (dictKeys_pyInsert_nodup _ _ _ h)

theorem read_const_file_nodup (fs : FS) (name directory : String)
    (d : List (String × ConstDef)) (h : read_const_file fs name directory = .ok d) :
    (dictKeys d).Nodup := by
  unfold read_const_file at h
  cases hf : fs directory name with
  | none => rw [hf] at h; exact absurd h (by simp)
  | some entries =>
      rw [hf] at h
      injection h with h
      subst h
      have : ∀ (l : List VarEntry) (acc : List (String × ConstDef)),
          (dictKeys acc).Nodup →
          (dictKeys (l.foldl (fun acc v => pyInsert acc v.name ⟨v.value, v.units⟩) acc)).Nodup := by
        intro l
        induction l with
        | nil => intro acc ha; exact ha
        | cons v vs ih => intro acc ha; exact ih _ (dictKeys_pyInsert_nodup _ _ _ ha)
      exact this entries [] (by simp [dictKeys])

instance exceptDecEq {ε α : Type} [DecidableEq ε] [DecidableEq α] :
    DecidableEq (Except ε α) := fun x y =>
  match x, y with
  | .ok a, .ok b =>
      if h : a = b then isTrue (by rw [h])
      else isFalse (by intro hc; injection hc; exact h ‹_›)
  | .error a, .error b =>
      if h : a = b then isTrue (by rw [h])
      else isFalse (by intro hc; injection hc; exact h ‹_›)
  | .ok _, .error _ => isFalse (by intro hc; exact Except.noConfusion hc)
  | .error _, .ok _ => isFalse (by intro hc; exact Except.noConfusion hc)

theorem dictGet_mapVal {α β : Type} (f : String → α → β) (d : List (String × α)) (k : String) :
    dictGet (d.map (fun p => (p.1, f p.1 p.2))) k = (dictGet d k).map (f k) := by
  induction d with
  | nil => simp [dictGet]
  | cons p ps ih =>
      by_cases h : p.1 = k <;> simp [dictGet, h, ih]

/-- Computation rule for `init_const` once the two file reads are known. -/
theorem init_const_eq (fs : FS) (name : String) (dir : Option String)
    (g s : List (String × ConstDef))
    (hg : read_const_file fs "general" constDir = .ok g)
    (hs : read_const_file fs name (dir.getD constDir) = .ok s) :
    init_const fs name dir =
      (match dictGet ((pyUpdate g s).map (fun p => (p.1, constToCube p.1 p.2)))
          "molar_gas_constant" with
       | Option.none => .error (.attr (name.capitalize ++ "Constants") "molar_gas_constant")
       | some cm =>
         match dictGet ((pyUpdate g s).map (fun p => (p.1, constToCube p.1 p.2)))
             "dry_air_molecular_weight" with
         | Option.none => .error (.attr (name.capitalize ++ "Constants") "dry_air_molecular_weight")
         | some cd =>
           .ok ⟨(pyUpdate g s).map Prod.fst,
                pyInsert ((pyUpdate g s).map (fun p => (p.1, constToCube p.1 p.2)))
                  "dry_air_gas_constant"
                  (SCube.rename (SCube.div cm cd) "dry_air_gas_constant")⟩) := by
  unfold init_const
  rw [hg, hs]
  rfl

/-- Inversion: a successful `init_const` determines the two file reads, the
presence of the two operand fields, and the shape of the resulting record. -/
theorem init_const_ok_elim (fs : FS) (name : String) (dir : Option String) (r : ConstRec)
    (h : init_const fs name dir = .ok r) :
    ∃ g s cm cd,
      read_const_file fs "general" constDir = .ok g ∧
      read_const_file fs name (dir.getD constDir) = .ok s ∧
      dictGet ((pyUpdate g s).map (fun p => (p.1, constToCube p.1 p.2)))
        "molar_gas_constant" = some cm ∧
      dictGet ((pyUpdate g s).map (fun p => (p.1, constToCube p.1 p.2)))
        "dry_air_molecular_weight" = some cd ∧
      r = ⟨(pyUpdate g s).map Prod.fst,
           pyInsert ((pyUpdate g s).map (fun p => (p.1, constToCube p.1 p.2)))
             "dry_air_gas_constant"
             (SCube.rename (SCube.div cm cd) "dry_air_gas_constant")⟩ := by
  unfold init_const at h
  cases hg : read_const_file fs "general" constDir with
  | error e => rw [hg] at h; exact absurd h (by simp [Bind.bind, Except.bind])
  | ok g =>
    rw [hg] at h
    cases hs : read_const_file fs name (dir.getD constDir) with
    | error e => rw [hs] at h; exact absurd h (by simp [Bind.bind, Except.bind])
    | ok s =>
      rw [hs] at h
      simp only [Bind.bind, Except.bind] at h
      cases hm : dictGet ((pyUpdate g s).map (fun p => (p.1, constToCube p.1 p.2)))
          "molar_gas_constant" with
      | none => rw [hm] at h; exact absurd h (by simp)
      | some cm =>
        rw [hm] at h
        cases hd : dictGet ((pyUpdate g s).map (fun p => (p.1, constToCube p.1 p.2)))
            "dry_air_molecular_weight" with
        | none => rw [hd] at h; exact absurd h (by simp)
        | some cd =>
          rw [hd] at h
          injection h with h
          exact ⟨g, s, cm, cd, rfl, rfl, hm, hd, h.symm⟩

/-! ### C1: where `init_const` looks for `general.json` -/

/-- Concrete filesystem for C1: the default constants directory holds
`general.json` (with the two operand fields), and the user directory
`userdir` holds only `earth.json` — no `general.json`. -/
def fsC1 : FS := fun d f =>
  if d = constDir then
    (if f = "general" then
      some [⟨"molar_gas_constant", 8, some "J K-1 mol-1"⟩,
            ⟨"dry_air_molecular_weight", 2, some "kg mol-1"⟩]
     else Option.none)
  else if d = "userdir" then
    (if f = "earth" then some [⟨"gravity", 10, some "m s-2"⟩] else Option.none)
  else Option.none

/-- C1 counterexample: `init_const("earth", "userdir")` succeeds although
`userdir` contains no `general.json` — the `general` definitions are read from
the default directory, not from the supplied one, so no load error is raised. -/
theorem init_const_no_general_in_userdir_cx :
    exceptIsOk (init_const fsC1 "earth" (some "userdir")) = true ∧
    fsC1 "userdir" "general" = Option.none := by
  exact ⟨by decide, by decide⟩

/-- C1 (amended): the `general` definitions are always looked up in the
*default* directory; `init_const(name, directory)` raises the load error
naming `general` and the default directory when `general.json` is missing
there, and the load error naming the requested set and the supplied directory
when the named set's file is missing from the supplied directory.  The absence
of `general.json` in the supplied directory alone causes no failure. -/
theorem init_const_load_error (fs : FS) (name dir : String) :
    (fs constDir "general" = Option.none →
      init_const fs name (some dir) = .error (.load "general" constDir)) ∧
    (fs constDir "general" ≠ Option.none → fs dir name = Option.none →
      init_const fs name (some dir) = .error (.load name dir)) := by
  constructor
  · intro hg
    unfold init_const read_const_file
    rw [hg]
    rfl
  · intro hg hn
    unfold init_const read_const_file
    cases hge : fs constDir "general" with
    | none => exact absurd hge hg
    | some entries =>
        simp only [Option.getD]
        rw [hn]
        rfl

/-- Witness for the amended C1: both load-error paths at concrete inputs. -/
theorem init_const_load_error_witness :
    init_const (fun _ _ => Option.none) "earth" (some "userdir") =
      .error (.load "general" constDir) ∧
    init_const fsC1 "earth" (some "nodir") = .error (.load "earth" "nodir") :=
  ⟨(init_const_load_error (fun _ _ => Option.none) "earth" "userdir").1 rfl,
   (init_const_load_error fsC1 "earth" "nodir").2 (by decide) (by decide)⟩

/-! ### C6: merged field set and named-set precedence -/

/-- Concrete filesystem for C6: `dry_air_gas_constant` appears in *both*
`general.json` and `earth.json` with different values. -/
def fsC6 : FS := fun d f =>
  if d = constDir then
    (if f = "general" then
      some [⟨"molar_gas_constant", 8, some "J K-1 mol-1"⟩,
            ⟨"dry_air_molecular_weight", 2, some "kg mol-1"⟩,
            ⟨"dry_air_gas_constant", 1, some "J K-1 kg-1"⟩]
     else if f = "earth" then
      some [⟨"dry_air_gas_constant", 2, some "J K-1 kg-1"⟩,
            ⟨"gravity", 10, some "m s-2"⟩]
     else Option.none)
  else Option.none

/-- C6 (amended): the record type's field names are exactly the union of the
`general` key set and the named set's key set; on any key of the named set the
*merged definitions* (which instantiate the record) take the named set's
value, and the constructed record's field holds the scalar cube made from that
value — except for `dry_air_gas_constant`, which the post-construction
derivation step overwrites. -/
theorem init_const_merge_fields (fs : FS) (name : String) (dir : Option String)
    (g s : List (String × ConstDef)) (r : ConstRec)
    (hg : read_const_file fs "general" constDir = .ok g)
    (hs : read_const_file fs name (dir.getD constDir) = .ok s)
    (hr : init_const fs name dir = .ok r) :
    (∀ k, k ∈ r.dcFields ↔ (k ∈ dictKeys g ∨ k ∈ dictKeys s)) ∧
    (∀ k, k ∈ dictKeys s → dictGet (pyUpdate g s) k = dictGet s k) ∧
    (∀ k, k ∈ dictKeys s → k ≠ "dry_air_gas_constant" →
      dictGet r.attrs k = (dictGet s k).map (fun d => constToCube k d)) := by
  obtain ⟨g', s', cm, cd, hg', hs', hm, hd, hrr⟩ := init_const_ok_elim fs name dir r hr
  rw [hg] at hg'
  rw [hs] at hs'
  injection hg' with hg'
  injection hs' with hs'
  subst hg' hs' hrr
  refine ⟨?_, ?_, ?_⟩
  · intro k
    show k ∈ dictKeys (pyUpdate g s) ↔ _
    exact mem_dictKeys_pyUpdate s g k
  · intro k hk
    exact dictGet_pyUpdate_of_mem s g k (read_const_file_nodup fs name _ s hs) hk
  · intro k hk hne
    show dictGet (pyInsert _ "dry_air_gas_constant" _) k = _
    rw [dictGet_pyInsert_ne _ _ _ _ hne, dictGet_mapVal,
      dictGet_pyUpdate_of_mem s g k (read_const_file_nodup fs name _ s hs) hk]

/-- The `general` dict read from `fsC6`. -/
def gC6 : List (String × ConstDef) :=
  [("molar_gas_constant", ⟨8, some "J K-1 mol-1"⟩),
   ("dry_air_molecular_weight", ⟨2, some "kg mol-1"⟩),
   ("dry_air_gas_constant", ⟨1, some "J K-1 kg-1"⟩)]

/-- The `earth` dict read from `fsC6`. -/
def sC6 : List (String × ConstDef) :=
  [("dry_air_gas_constant", ⟨2, some "J K-1 kg-1"⟩),
   ("gravity", ⟨10, some "m s-2"⟩)]

/-- The record built by `init_const fsC6 "earth"`. -/
def rC6 : ConstRec :=
  ⟨["molar_gas_constant", "dry_air_molecular_weight", "dry_air_gas_constant", "gravity"],
   [("molar_gas_constant", ⟨8, Units.base "J K-1 mol-1", "molar_gas_constant"⟩),
    ("dry_air_molecular_weight", ⟨2, Units.base "kg mol-1", "dry_air_molecular_weight"⟩),
    ("dry_air_gas_constant",
      ⟨4, Units.div (Units.base "J K-1 mol-1") (Units.base "kg mol-1"),
       "dry_air_gas_constant"⟩),
    ("gravity", ⟨10, Units.base "m s-2", "gravity"⟩)]⟩

/-- Evaluation of `init_const` on the C6 filesystem. -/
theorem init_const_fsC6_eval : init_const fsC6 "earth" = .ok rC6 := by
  norm_num +decide [init_const, read_const_file, fsC6, constDir, pyUpdate, pyInsert,
    dictGet, dictKeys, constToCube, SCube.div, SCube.rename, rC6, Bind.bind, Except.bind]

/-- C6 counterexample: `dry_air_gas_constant` is present in both definition
sets (general: 1, earth: 2), yet the constructed record's field holds neither —
the post-construction derivation overwrites it with
`molar_gas_constant / dry_air_molecular_weight = 8 / 2 = 4`.  So on this key
the field's value does not come from the named set. -/
theorem init_const_precedence_cx :
    recAttr (init_const fsC6 "earth") "dry_air_gas_constant" =
      some ⟨4, Units.div (Units.base "J K-1 mol-1") (Units.base "kg mol-1"),
            "dry_air_gas_constant"⟩ ∧
    recAttr (init_const fsC6 "earth") "dry_air_gas_constant" ≠
      some (constToCube "dry_air_gas_constant" ⟨2, some "J K-1 kg-1"⟩) := by
  rw [init_const_fsC6_eval]
  exact ⟨by decide, by decide⟩

/-- Witness for the amended C6 at the concrete filesystem `fsC6`. -/
theorem init_const_merge_fields_witness :
    ("gravity" ∈ rC6.dcFields ↔
      ("gravity" ∈ dictKeys gC6 ∨ "gravity" ∈ dictKeys sC6)) ∧
    dictGet (pyUpdate gC6 sC6) "dry_air_gas_constant" =
      dictGet sC6 "dry_air_gas_constant" ∧
    dictGet rC6.attrs "gravity" =
      (dictGet sC6 "gravity").map (fun d => constToCube "gravity" d) := by
  have h := init_const_merge_fields fsC6 "earth" Option.none gC6 sC6 rC6
    (by decide) (by decide) init_const_fsC6_eval
  exact ⟨h.1 "gravity", h.2.1 "dry_air_gas_constant" (by decide),
    h.2.2 "gravity" (by decide) (by decide)⟩

/-! ### C7: the derived `dry_air_gas_constant` field -/

theorem isSome_of_map_eq_some {α β : Type} {o : Option α} {f : α → β} {b : β}
    (h : o.map f = some b) : o.isSome := by
  cases o with
  | none => simp at h
  | some a => rfl

/-- C7: after a successful construction the `dry_air_gas_constant` attribute
equals the quotient of the record's `molar_gas_constant` and
`dry_air_molecular_weight` cubes (data quotient, units quotient, renamed), and
every dataclass field other than `dry_air_gas_constant` is fully resolved to a
scalar cube: data = the merged definition's value, units = its `units` string
or dimensionless, name = the field name. -/
theorem init_const_derived_field (fs : FS) (name : String) (dir : Option String)
    (g s : List (String × ConstDef)) (r : ConstRec) (cm cd : SCube)
    (hg : read_const_file fs "general" constDir = .ok g)
    (hs : read_const_file fs name (dir.getD constDir) = .ok s)
    (hr : init_const fs name dir = .ok r)
    (hm : dictGet r.attrs "molar_gas_constant" = some cm)
    (hd : dictGet r.attrs "dry_air_molecular_weight" = some cd) :
    dictGet r.attrs "dry_air_gas_constant" =
      some ⟨cm.data / cd.data, Units.div cm.units cd.units, "dry_air_gas_constant"⟩ ∧
    (∀ k, k ∈ r.dcFields → k ≠ "dry_air_gas_constant" →
      ∃ d, dictGet (pyUpdate g s) k = some d ∧
        dictGet r.attrs k = some (constToCube k d)) := by
  obtain ⟨g', s', cm', cd', hg', hs', hm', hd', hrr⟩ := init_const_ok_elim fs name dir r hr
  rw [hg] at hg'
  rw [hs] at hs'
  injection hg' with e1
  injection hs' with e2
  subst e1
  subst e2
  subst hrr
  have hmg : ("molar_gas_constant" : String) ≠ "dry_air_gas_constant" := by decide
  have hdw : ("dry_air_molecular_weight" : String) ≠ "dry_air_gas_constant" := by decide
  dsimp only at hm hd
  rw [dictGet_pyInsert_ne _ _ _ _ hmg, hm'] at hm
  rw [dictGet_pyInsert_ne _ _ _ _ hdw, hd'] at hd
  injection hm with hm
  injection hd with hd
  subst hm
  subst hd
  constructor
  · dsimp only
    rw [dictGet_pyInsert_self]
    rfl
  · intro k hk hne
    dsimp only at hk ⊢
    have hk' : k ∈ dictKeys (pyUpdate g s) := hk
    have hsome : (dictGet (pyUpdate g s) k).isSome :=
      (mem_dictKeys_iff_isSome _ _).mp hk'
    cases h2 : dictGet (pyUpdate g s) k with
    | none => rw [h2] at hsome; exact absurd hsome (by simp)
    | some d =>
        refine ⟨d, rfl, ?_⟩
        rw [dictGet_pyInsert_ne _ _ _ _ hne, dictGet_mapVal, h2]
        rfl

/-- Concrete filesystem for C7: valid `general` and `earth` sets with the two
operand fields only in `general`. -/
def fsC7 : FS := fun d f =>
  if d = constDir then
    (if f = "general" then
      some [⟨"molar_gas_constant", 8, some "J K-1 mol-1"⟩,
            ⟨"dry_air_molecular_weight", 2, some "kg mol-1"⟩]
     else if f = "earth" then
      some [⟨"gravity", 10, some "m s-2"⟩]
     else Option.none)
  else Option.none

/-- The `general` dict read from `fsC7`. -/
def gC7 : List (String × ConstDef) :=
  [("molar_gas_constant", ⟨8, some "J K-1 mol-1"⟩),
   ("dry_air_molecular_weight", ⟨2, some "kg mol-1"⟩)]

/-- The `earth` dict read from `fsC7`. -/
def sC7 : List (String × ConstDef) :=
  [("gravity", ⟨10, some "m s-2"⟩)]

/-- The record built by `init_const fsC7 "earth"`: the derived attribute is
appended after the three dataclass fields. -/
def rC7 : ConstRec :=
  ⟨["molar_gas_constant", "dry_air_molecular_weight", "gravity"],
   [("molar_gas_constant", ⟨8, Units.base "J K-1 mol-1", "molar_gas_constant"⟩),
    ("dry_air_molecular_weight", ⟨2, Units.base "kg mol-1", "dry_air_molecular_weight"⟩),
    ("gravity", ⟨10, Units.base "m s-2", "gravity"⟩),
    ("dry_air_gas_constant",
      ⟨4, Units.div (Units.base "J K-1 mol-1") (Units.base "kg mol-1"),
       "dry_air_gas_constant"⟩)]⟩

/-- Evaluation of `init_const` on the C7 filesystem. -/
theorem init_const_fsC7_eval : init_const fsC7 "earth" = .ok rC7 := by
  norm_num +decide [init_const, read_const_file, fsC7, constDir, pyUpdate, pyInsert,
    dictGet, dictKeys, constToCube, SCube.div, SCube.rename, rC7, Bind.bind, Except.bind]

/-- Witness for C7 at the concrete filesystem `fsC7`. -/
theorem init_const_derived_field_witness :
    dictGet rC7.attrs "dry_air_gas_constant" =
      some ⟨(8 : ℚ) / 2, Units.div (Units.base "J K-1 mol-1") (Units.base "kg mol-1"),
            "dry_air_gas_constant"⟩ :=
  (init_const_derived_field fsC7 "earth" Option.none gC7 sC7 rC7
    ⟨8, Units.base "J K-1 mol-1", "molar_gas_constant"⟩
    ⟨2, Units.base "kg mol-1", "dry_air_molecular_weight"⟩
    (by decide) (by decide) init_const_fsC7_eval (by decide) (by decide)).1

/-! ### C10: construction requires the two operand fields -/

/-- C10: with both JSON files loading correctly, `init_const` succeeds only if
the merged definitions contain both `molar_gas_constant` and
`dry_air_molecular_weight`; lacking the former it fails with an attribute
error on `molar_gas_constant`, and lacking only the latter it fails with an
attribute error on `dry_air_molecular_weight`. -/
theorem init_const_requires_operands (fs : FS) (name : String) (dir : Option String)
    (g s : List (String × ConstDef))
    (hg : read_const_file fs "general" constDir = .ok g)
    (hs : read_const_file fs name (dir.getD constDir) = .ok s) :
    (∀ r, init_const fs name dir = .ok r →
        "molar_gas_constant" ∈ dictKeys (pyUpdate g s) ∧
        "dry_air_molecular_weight" ∈ dictKeys (pyUpdate g s)) ∧
    ("molar_gas_constant" ∉ dictKeys (pyUpdate g s) →
        init_const fs name dir =
          .error (.attr (name.capitalize ++ "Constants") "molar_gas_constant")) ∧
    ("molar_gas_constant" ∈ dictKeys (pyUpdate g s) →
        "dry_air_molecular_weight" ∉ dictKeys (pyUpdate g s) →
        init_const fs name dir =
          .error (.attr (name.capitalize ++ "Constants") "dry_air_molecular_weight")) := by
  refine ⟨?_, ?_, ?_⟩
  · intro r hr
    obtain ⟨g', s', cm, cd, hg', hs', hm, hd, _⟩ := init_const_ok_elim fs name dir r hr
    rw [hg] at hg'
    rw [hs] at hs'
    injection hg' with e1
    injection hs' with e2
    subst e1
    subst e2
    rw [dictGet_mapVal] at hm hd
    exact ⟨(mem_dictKeys_iff_isSome _ _).mpr (isSome_of_map_eq_some hm),
           (mem_dictKeys_iff_isSome _ _).mpr (isSome_of_map_eq_some hd)⟩
  · intro hmem
    rw [init_const_eq fs name dir g s hg hs]
    have hnone : dictGet (pyUpdate g s) "molar_gas_constant" = Option.none := by
      cases h2 : dictGet (pyUpdate g s) "molar_gas_constant" with
      | none => rfl
      | some d =>
          exact absurd ((mem_dictKeys_iff_isSome _ _).mpr (by rw [h2]; rfl)) hmem
    rw [dictGet_mapVal, hnone]
    rfl
  · intro hmem hnmem
    rw [init_const_eq fs name dir g s hg hs]
    have hsome := (mem_dictKeys_iff_isSome _ _).mp hmem
    have hnone : dictGet (pyUpdate g s) "dry_air_molecular_weight" = Option.none := by
      cases h2 : dictGet (pyUpdate g s) "dry_air_molecular_weight" with
      | none => rfl
      | some d =>
          exact absurd ((mem_dictKeys_iff_isSome _ _).mpr (by rw [h2]; rfl)) hnmem
    cases h2 : dictGet (pyUpdate g s) "molar_gas_constant" with
    | none => rw [h2] at hsome; exact absurd hsome (by simp)
    | some d =>
        rw [dictGet_mapVal, h2, dictGet_mapVal, hnone]
        rfl

/-- Concrete filesystem for C10: both files load, but
`dry_air_molecular_weight` is missing from the merged definitions. -/
def fsC10 : FS := fun d f =>
  if d = constDir then
    (if f = "general" then
      some [⟨"molar_gas_constant", 8, some "J K-1 mol-1"⟩]
     else if f = "earth" then
      some [⟨"gravity", 10, some "m s-2"⟩]
     else Option.none)
  else Option.none

/-- Witness for C10: both files of `fsC10` load, yet construction fails with
the attribute error on the missing `dry_air_molecular_weight`. -/
theorem init_const_requires_operands_witness :
    init_const fsC10 "earth" =
      .error (.attr ("earth".capitalize ++ "Constants") "dry_air_molecular_weight") :=
  (init_const_requires_operands fsC10 "earth" Option.none
    [("molar_gas_constant", ⟨8, some "J K-1 mol-1"⟩)]
    [("gravity", ⟨10, some "m s-2"⟩)]
    (by decide) (by decide)).2.2 (by decide) (by decide)

/-! ### The statistics module (`aeolus/calc/stats.py`)

Arrays are embedded as lists of rationals (the float data of a cube), and
cubes are specialised per function family to the coordinate structure that
the function actually touches:
  * `VCube` — a cube with one vertical dimension coordinate plus auxiliary
    coordinates (`vertical_mean`);
  * `GCube` — a cube with latitude and longitude axes (`spatial`,
    `zonal_mean`, `meridional_mean`);
  * `TCube` — a cube with one axis carrying missing values (`cumsum`).
Each top-level statistics function returns the result *and* the post-call
state of the caller's cube(s), so that absence of mutation is a theorem
rather than a convention. -/

/-- A cube with a single (vertical) dimension coordinate plus auxiliary
coordinates, as consumed by `vertical_mean`. -/
structure VCube where
  name : String
  data : List ℚ
  zcoord : Coord
  auxCoords : List Coord
  units : Units
  deriving DecidableEq, Repr

/-- `cube.coord(name)`: find a coordinate by name among the cube's
coordinates (the dimension coordinate, then the auxiliary ones). -/
def VCube.coordByName (c : VCube) (n : String) : Option Coord :=
  (c.zcoord :: c.auxCoords).find? (fun co => co.name == n)

/-- `a_copy = cube.copy(); a_copy.coord(coord).bounds = None`: a copy of the
cube with the vertical coordinate's bounds stripped. -/
def VCube.stripZBounds (c : VCube) : VCube :=
  { c with zcoord := { c.zcoord with bounds := Option.none } }

/-- Elementwise cube multiplication (`b_copy * a_copy`): iris requires the
shared dimension coordinate's metadata to agree (which is why `vertical_mean`
strips bounds first) and the data shapes to match; data multiply pointwise,
units multiply, and the result's name is reset. -/
def VCube.mul (a b : VCube) : Except Err VCube :=
  if a.zcoord = b.zcoord then
    if a.data.length = b.data.length then
      .ok ⟨"unknown", List.zipWith (· * ·) a.data b.data, a.zcoord, [], Units.mul a.units b.units⟩
    else .error .shapeMismatch
  else .error (.valueErr "coordinate mismatch")

/-- Trapezoidal rule of a data list against the coordinate points. -/
def trapz : List ℚ → List ℚ → ℚ
  | d1 :: d2 :: ds, p1 :: p2 :: ps => (p2 - p1) * (d1 + d2) / 2 + trapz (d2 :: ds) (p2 :: ps)
  | _, _ => 0

/-- Modelled from the spec: `integrate` from `aeolus.calc.calculus` (imported
by `stats.py` but not under `src/`) — "integrates ... over the vertical
axis": collapse the named coordinate by trapezoidal integration over its
point values, multiplying the units by the coordinate's units.  It reads the
coordinate's points, not its bounds. -/
def integrate (c : VCube) (coordName : String) : Except Err SCube :=
  if c.zcoord.name = coordName then
    if c.data.length = c.zcoord.points.length then
      .ok ⟨trapz c.data c.zcoord.points, Units.mul c.units c.zcoord.units,
           "integral_of_" ++ c.name⟩
    else .error .shapeMismatch
  else .error (.coordNotFound coordName)

/-- Mean of a list (`iris.analysis.MEAN` over one axis). -/
def listMean (l : List ℚ) : ℚ := l.sum / l.length

/-- `cube.collapsed(coord, MEAN)`, optionally with point-value weights
(`weights=...`): the weighted mean `Σ wᵢ dᵢ / Σ wᵢ`, plain mean when no
weights are given. -/
def collapsedMeanV (c : VCube) (coordName : String) (w : Option (List ℚ)) :
    Except Err SCube :=
  if c.zcoord.name = coordName then
    match w with
    | Option.none => .ok ⟨listMean c.data, c.units, c.name⟩
    | some ws =>
        if ws.length = c.data.length then
          .ok ⟨(List.zipWith (· * ·) ws c.data).sum / ws.sum, c.units, c.name⟩
        else .error .shapeMismatch
  else .error (.coordNotFound coordName)

/-- The `weight_by` argument of `vertical_mean`: `None`, a coordinate name, a
coordinate object, another cube, or a value of any other type (the `other`
constructor carries the type's name, as interpolated into the Python
`ValueError`). -/
inductive WeightBy where
  | none : WeightBy
  | byName : String → WeightBy
  | byCoord : Coord → WeightBy
  | byCube : VCube → WeightBy
  | other : String → WeightBy
  deriving DecidableEq, Repr

/-- `vertical_mean(cube, model, weight_by)`: three-way dispatch on the type
of the weighting argument — plain collapse by MEAN, collapse by MEAN weighted
with a coordinate's point values, or the ratio of vertical integrals with the
vertical bounds stripped from copies of both cubes — then rename to
`vertical_mean_of_<name>`.  Returns the result together with the post-call
states of the caller's cube and weighting argument (the function only ever
mutates copies). -/
def vertical_mean (cube : VCube) (m : Model) (weight_by : WeightBy) :
    (Except Err SCube) × VCube × WeightBy :=
  let coord := m.z
  let res : Except Err SCube := do
    let vmean ← (match weight_by with
      | WeightBy.none => collapsedMeanV cube coord Option.none
      | WeightBy.byName s =>
          (match cube.coordByName s with
           | some c => collapsedMeanV cube coord (some c.points)
           | Option.none => .error (.coordNotFound s))
      | WeightBy.byCoord co =>
          (match cube.coordByName co.name with
           | some c => collapsedMeanV cube coord (some c.points)
           | Option.none => .error (.coordNotFound co.name))
      | WeightBy.byCube w => do
          let prod ← VCube.mul w.stripZBounds cube.stripZBounds
          let num ← integrate prod coord
          let den ← integrate w coord
          pure (SCube.div num den)
      | WeightBy.other t => .error (.unrecognisedWeight t))
    pure (SCube.rename vmean ("vertical_mean_of_" ++ cube.name))
  (res, cube, weight_by)

/-- A cube with a latitude axis (rows) and a longitude axis (columns), as
consumed by `spatial`, `zonal_mean` and `meridional_mean`. -/
structure GCube where
  name : String
  data : List (List ℚ)
  lat : Coord
  lon : Coord
  units : Units
  deriving DecidableEq, Repr

/-- The column count of the cube's data (second entry of `cube.shape`). -/
def GCube.ncols (c : GCube) : Nat := (c.data.head?.getD []).length

/-- A cube collapsed down to one remaining axis. -/
structure MCube where
  name : String
  data : List ℚ
  kept : Coord
  units : Units
  deriving DecidableEq, Repr

/-- `iris.util.broadcast_to_shape(v, (h, w), (0,))`: tile a vector along the
first axis, constant across `w` columns. -/
def broadcast_to_shape (v : List ℚ) (w : Nat) : List (List ℚ) :=
  v.map (fun x => List.replicate w x)

/-- Elementwise multiplication of a cube's data with a same-shaped array
(`cube * coslat2d`). -/
def mulRows (a b : List (List ℚ)) : List (List ℚ) :=
  List.zipWith (fun r q => List.zipWith (· * ·) r q) a b

/-- Collapse of the first (latitude) axis by SUM: column sums. -/
def colSums (w : Nat) (rows : List (List ℚ)) : List ℚ :=
  rows.foldl (fun acc r => List.zipWith (· + ·) acc r) (List.replicate w 0)

/-- `meridional_mean(cube, model)`: weight by the cosine of latitude
broadcast over the cube's shape, sum over the latitude axis, divide by the
sum of the weights.  The composite `np.cos(np.deg2rad(·))` applied to the
latitude points is a float routine on the Python side; it is abstracted here
as the function argument `cosdeg`, which every theorem quantifies over.
Binary cube arithmetic resets the name (iris leaves the result unnamed and
`meridional_mean` does not rename). -/
def meridional_mean (cosdeg : ℚ → ℚ) (c : GCube) (m : Model) :
    (Except Err MCube) × GCube :=
  let res : Except Err MCube :=
    if c.lat.name = m.y then
      let coslat := c.lat.points.map cosdeg
      let coslat2d := broadcast_to_shape coslat c.ncols
      let summed := colSums c.ncols (mulRows c.data coslat2d)
      .ok ⟨"unknown", summed.map (fun x => x / coslat.sum), c.lon, c.units⟩
    else .error (.coordNotFound m.y)
  (res, c)

/-- `zonal_mean(cube, model)`: unweighted MEAN over the longitude axis. -/
def zonal_mean (c : GCube) (m : Model) : (Except Err MCube) × GCube :=
  (if c.lon.name = m.x then
    .ok ⟨c.name, c.data.map listMean, c.lat, c.units⟩
   else .error (.coordNotFound m.x), c)

/-- Interior edges of `guess_bounds`: midpoints of consecutive points. -/
def midpointEdges : List ℚ → List ℚ
  | a :: b :: rest => (a + b) / 2 :: midpointEdges (b :: rest)
  | _ => []

/-- `coord.guess_bounds()`: midpoint bounds with linearly extrapolated outer
edges; the underlying library refuses coordinates with fewer than two
points. -/
def guessBounds (pts : List ℚ) : Option (List (ℚ × ℚ)) :=
  match pts with
  | p0 :: p1 :: rest =>
      let rev := (p0 :: p1 :: rest).reverse
      let q0 := rev.getD 0 0
      let q1 := rev.getD 1 0
      let edges :=
        (p0 - (p1 - p0) / 2) :: (midpointEdges (p0 :: p1 :: rest) ++ [q0 + (q0 - q1) / 2])
      some (edges.zip edges.tail)
  | _ => Option.none

/-- Bounds-completion of one coordinate: keep existing bounds, guess them
when absent (and leave the coordinate unchanged when guessing is
impossible). -/
def ensureCoordBounds (c : Coord) : Coord :=
  if c.bounds.isSome then c
  else
    match guessBounds c.points with
    | some b => { c with bounds := some b }
    | Option.none => c

/-- Modelled from the spec: `ensure_bounds` from `aeolus.coord` (imported by
`stats.py` but not under `src/`) — "ensures both horizontal axes carry bounds
(computing them if absent)"; per the spec's purity convention bounds are
guessed on a local copy, so the updated copy is returned. -/
def ensure_bounds (c : GCube) : GCube :=
  { c with lat := ensureCoordBounds c.lat, lon := ensureCoordBounds c.lon }

/-- Modelled from the spec: `area_weights_cube(cube, normalize=True)` from
`aeolus.coord` (not under `src/`) — "normalized area weights from the grid
geometry": cell extents from the bounds of the two horizontal coordinates,
normalized so the weights sum to one over the grid. -/
def area_weights_cube (c : GCube) : List (List ℚ) :=
  let latw := (c.lat.bounds.getD []).map (fun p => p.2 - p.1)
  let lonw := (c.lon.bounds.getD []).map (fun p => p.2 - p.1)
  let raw := latw.map (fun a => lonw.map (fun b => a * b))
  let total := (raw.map List.sum).sum
  raw.map (fun r => r.map (fun x => x / total))

/-- Python's `str.upper()`: upper-case every character. -/
def strUpper (s : String) : String := String.mk (s.data.map Char.toUpper)

/-- An entry of the `iris.analysis` aggregator registry: whether the
aggregator is a `WeightedAggregator`, and its collapse routine over the data
with optional weights. -/
structure Aggregator where
  weighted : Bool
  call : List (List ℚ) → Option (List (List ℚ)) → ℚ

/-- `spatial(cube, aggr, model)`: ensure both horizontal coordinates carry
bounds, resolve the upper-cased aggregator name in the registry (an attribute
error when absent), and collapse both horizontal axes — with normalized area
weights when both coordinates have bounds and the aggregator is weighted,
unweighted otherwise.  The registry stands for the external `iris.analysis`
module and is passed as an argument. -/
def spatial (registry : String → Option Aggregator) (cube : GCube) (aggr : String)
    (m : Model) : (Except Err SCube) × GCube :=
  let res : Except Err SCube :=
    if cube.lat.name = m.y ∧ cube.lon.name = m.x then
      let c2 := ensure_bounds cube
      let flag := c2.lat.bounds.isSome && c2.lon.bounds.isSome
      match registry (strUpper aggr) with
      | Option.none => .error (.attr "iris.analysis" (strUpper aggr))
      | some ag =>
          if flag && ag.weighted then
            .ok ⟨ag.call c2.data (some (area_weights_cube c2)), c2.units, c2.name⟩
          else .ok ⟨ag.call c2.data Option.none, c2.units, c2.name⟩
    else .error (.coordNotFound (m.y ++ "," ++ m.x))
  (res, cube)

/-- A coordinate with an axis label, as looked up by `cumsum`'s
`cube.coord(axis=axis)` fallback. -/
structure TCoord where
  name : String
  points : List ℚ
  bounds : Option (List (ℚ × ℚ))
  units : Units
  axis : String
  deriving DecidableEq, Repr

/-- A cube with one axis whose data may carry missing values, as consumed by
`cumsum`. -/
structure TCube where
  name : String
  data : List (Option ℚ)
  coord : TCoord
  units : Units
  deriving DecidableEq, Repr

/-- `getattr(model, axis)`: the model's coordinate name for an abstract axis
label, `none` (an `AttributeError`) for any other label. -/
def modelAttr (m : Model) (axis : String) : Option String :=
  if axis = "t" then some m.t
  else if axis = "z" then some m.z
  else if axis = "y" then some m.y
  else if axis = "x" then some m.x
  else Option.none

/-- Running-sum accumulator of `np.nancumsum`. -/
def nancumsumAux (acc : ℚ) : List (Option ℚ) → List ℚ
  | [] => []
  | x :: xs => (acc + x.getD 0) :: nancumsumAux (acc + x.getD 0) xs

/-- `np.nancumsum`: the running sum treating missing values as zero. -/
def nancumsum (l : List (Option ℚ)) : List ℚ := nancumsumAux 0 l

/-- `np.nansum`: the full sum treating missing values as zero. -/
def nansum (l : List (Option ℚ)) : ℚ := (l.map (fun x => x.getD 0)).sum

/-- The `try: cube.coord(getattr(model, axis)) except (AttributeError,
CoordinateNotFoundError): cube.coord(axis=axis)` resolution at the top of
`cumsum`: prefer the model's name for the axis, fall back to the
coordinate's own axis label. -/
def resolveCoord (cube : TCube) (axis : String) (m : Model) : Except Err TCoord :=
  match modelAttr m axis with
  | some nm =>
      if cube.coord.name = nm then .ok cube.coord
      else if cube.coord.axis = axis then .ok cube.coord
      else .error (.coordNotFound axis)
  | Option.none =>
      if cube.coord.axis = axis then .ok cube.coord
      else .error (.coordNotFound axis)

/-- `cumsum(cube, axis, axis_weights, model)`: resolve the coordinate and
copy it; with `axis_weights`, guess bounds on the copy when absent (an error
below two points), multiply the data by the bound widths and the units by the
coordinate's units; then take the running sum treating missing values as
zero, on a copy of the cube renamed `cumulative_sum_of_<name>_along_<axis>`.
Returns the result together with the post-call state of the caller's cube
(only the coordinate *copy* ever has bounds guessed onto it). -/
def cumsum (cube : TCube) (axis : String) (axis_weights : Bool) (m : Model) :
    (Except Err TCube) × TCube :=
  let res : Except Err TCube := do
    let c ← resolveCoord cube axis m
    let wd ← (if axis_weights then
        (match (if c.bounds.isSome then c.bounds else guessBounds c.points) with
         | some bs =>
             if bs.length = cube.data.length then
               .ok (List.zipWith (fun x p => x.map (· * (p.2 - p.1))) cube.data bs,
                    Units.mul cube.units c.units)
             else .error Err.shapeMismatch
         | Option.none => .error (.valueErr "Cannot guess bounds"))
      else .ok (cube.data, cube.units))
    .ok { cube with
            data := (nancumsum wd.1).map some
            name := "cumulative_sum_of_" ++ cube.name ++ "_along_" ++ axis
            units := wd.2 }
  (res, cube)

/-! ### C2: `vertical_mean` with a weighting cube -/

/-- C2: with a weighting cube `w` sharing the model's vertical coordinate,
`vertical_mean(f, weight_by=w)` strips the vertical bounds from copies of
both inputs, multiplies them elementwise, and returns
`integrate(w*f, z) / integrate(w, z)`, renamed `vertical_mean_of_<f's name>`.
The bounds of both inputs' vertical coordinates are arbitrary here: they are
stripped before the product and do not enter the integrals. -/
theorem vertical_mean_by_cube_eq (f w : VCube) (m : Model)
    (hname : f.zcoord.name = m.z)
    (hcname : w.zcoord.name = f.zcoord.name)
    (hcpts : w.zcoord.points = f.zcoord.points)
    (hcunits : w.zcoord.units = f.zcoord.units)
    (hlen : f.data.length = f.zcoord.points.length)
    (hwlen : w.data.length = w.zcoord.points.length) :
    (vertical_mean f m (WeightBy.byCube w)).1 =
      .ok ⟨trapz (List.zipWith (· * ·) w.data f.data) f.zcoord.points /
             trapz w.data w.zcoord.points,
           Units.div (Units.mul (Units.mul w.units f.units) f.zcoord.units)
             (Units.mul w.units w.zcoord.units),
           "vertical_mean_of_" ++ f.name⟩ := by
  have hzeq : ({ w.zcoord with bounds := Option.none } : Coord) =
      { f.zcoord with bounds := Option.none } := by
    show Coord.mk w.zcoord.name w.zcoord.points Option.none w.zcoord.units =
      Coord.mk f.zcoord.name f.zcoord.points Option.none f.zcoord.units
    rw [hcname, hcpts, hcunits]
  have hdlen : w.data.length = f.data.length := by
    rw [hwlen, hcpts, ← hlen]
  have hmul : VCube.mul w.stripZBounds f.stripZBounds =
      .ok ⟨"unknown", List.zipWith (· * ·) w.data f.data,
           { w.zcoord with bounds := Option.none }, [],
           Units.mul w.units f.units⟩ := by
    simp only [VCube.mul, VCube.stripZBounds]
    rw [if_pos hzeq, if_pos hdlen]
  have hnum : integrate
      (⟨"unknown", List.zipWith (· * ·) w.data f.data,
        { w.zcoord with bounds := Option.none }, [],
        Units.mul w.units f.units⟩ : VCube) m.z =
      .ok ⟨trapz (List.zipWith (· * ·) w.data f.data) w.zcoord.points,
           Units.mul (Units.mul w.units f.units) w.zcoord.units,
           "integral_of_unknown"⟩ := by
    simp only [integrate]
    rw [if_pos (by simpa using hcname.trans hname)]
    rw [if_pos (by simp only [List.length_zipWith]; omega)]
    rfl
  have hden : integrate w m.z =
      .ok ⟨trapz w.data w.zcoord.points, Units.mul w.units w.zcoord.units,
           "integral_of_" ++ w.name⟩ := by
    simp only [integrate]
    rw [if_pos (hcname.trans hname), if_pos hwlen]
  simp only [vertical_mean, Bind.bind, Except.bind, hmul, hnum, hden, pure,
    Except.pure, SCube.div, SCube.rename]
  simp [hcpts, hcunits]

/-- Concrete cube for the C2 witness (no bounds on the vertical axis). -/
def fC2 : VCube :=
  ⟨"air_temperature", [1, 2],
   ⟨"level_height", [0, 100], Option.none, Units.base "m"⟩, [], Units.base "K"⟩

/-- Concrete weighting cube for the C2 witness (with vertical bounds, which
get stripped). -/
def wC2 : VCube :=
  ⟨"air_density", [3, 5],
   ⟨"level_height", [0, 100], some [(0, 50), (50, 100)], Units.base "m"⟩, [],
   Units.base "kg m-3"⟩

/-- Witness for C2 at concrete cubes, one of which carries vertical bounds. -/
theorem vertical_mean_by_cube_eq_witness :
    (vertical_mean fC2 um (WeightBy.byCube wC2)).1 =
      .ok ⟨trapz (List.zipWith (· * ·) wC2.data fC2.data) fC2.zcoord.points /
             trapz wC2.data wC2.zcoord.points,
           Units.div (Units.mul (Units.mul wC2.units fC2.units) fC2.zcoord.units)
             (Units.mul wC2.units wC2.zcoord.units),
           "vertical_mean_of_" ++ fC2.name⟩ :=
  vertical_mean_by_cube_eq fC2 wC2 um (by decide) (by decide) (by decide) (by decide)
    (by decide) (by decide)

/-! ### C4: dispatch on the type of `weight_by` -/

/-- Whether an error is the `unrecognised type of weight_by` rejection. -/
def Err.isUnrec : Err → Bool
  | .unrecognisedWeight _ => true
  | _ => false

/-- Whether a result is the `unrecognised type of weight_by` rejection. -/
def isUnrecErr {α : Type} : Except Err α → Bool
  | .error e => e.isUnrec
  | .ok _ => false

theorem except_bind_pure {α β : Type} (x : Except Err α) (f : α → β) :
    Except.bind x (fun a => pure (f a)) = Except.map f x := by
  cases x <;> rfl

theorem isUnrecErr_bind_pure {α β : Type} (x : Except Err α) (f : α → β) :
    isUnrecErr (Except.bind x (fun a => pure (f a))) = isUnrecErr x := by
  cases x with
  | ok v => rfl
  | error e => cases e <;> rfl

theorem collapsedMeanV_not_unrec (c : VCube) (n : String) (w : Option (List ℚ)) :
    isUnrecErr (collapsedMeanV c n w) = false := by
  unfold collapsedMeanV
  split
  · split
    · rfl
    · split <;> rfl
  · rfl

theorem integrate_not_unrec (c : VCube) (n : String) :
    isUnrecErr (integrate c n) = false := by
  unfold integrate
  split
  · split <;> rfl
  · rfl

theorem mul_not_unrec (a b : VCube) :
    isUnrecErr (VCube.mul a b) = false := by
  unfold VCube.mul
  split
  · split <;> rfl
  · rfl

theorem vm_none_eval (cube : VCube) (m : Model) :
    (vertical_mean cube m WeightBy.none).1 =
      Except.bind (collapsedMeanV cube m.z Option.none)
        (fun v => pure (v.rename ("vertical_mean_of_" ++ cube.name))) := rfl

theorem vm_byName_eval (cube : VCube) (m : Model) (s : String) :
    (vertical_mean cube m (WeightBy.byName s)).1 =
      Except.bind
        (match cube.coordByName s with
         | some c => collapsedMeanV cube m.z (some c.points)
         | Option.none => .error (.coordNotFound s))
        (fun v => pure (v.rename ("vertical_mean_of_" ++ cube.name))) := rfl

theorem vm_byCoord_eval (cube : VCube) (m : Model) (co : Coord) :
    (vertical_mean cube m (WeightBy.byCoord co)).1 =
      Except.bind
        (match cube.coordByName co.name with
         | some c => collapsedMeanV cube m.z (some c.points)
         | Option.none => .error (.coordNotFound co.name))
        (fun v => pure (v.rename ("vertical_mean_of_" ++ cube.name))) := rfl

theorem vm_byCube_eval (cube : VCube) (m : Model) (w' : VCube) :
    (vertical_mean cube m (WeightBy.byCube w')).1 =
      Except.bind
        (Except.bind (VCube.mul w'.stripZBounds cube.stripZBounds) (fun prod =>
          Except.bind (integrate prod m.z) (fun num =>
            Except.bind (integrate w' m.z) (fun den =>
              pure (SCube.div num den)))))
        (fun v => pure (v.rename ("vertical_mean_of_" ++ cube.name))) := rfl

theorem vm_other_eval (cube : VCube) (m : Model) (t : String) :
    (vertical_mean cube m (WeightBy.other t)).1 =
      .error (.unrecognisedWeight t) := rfl

theorem vm_not_unrec_of_not_other (cube : VCube) (m : Model) (wb : WeightBy)
    (h : ∀ t, wb ≠ WeightBy.other t) :
    isUnrecErr (vertical_mean cube m wb).1 = false := by
  cases wb with
  | none => rw [vm_none_eval, isUnrecErr_bind_pure]; exact collapsedMeanV_not_unrec _ _ _
  | byName s =>
      rw [vm_byName_eval, isUnrecErr_bind_pure]
      cases hc : cube.coordByName s with
      | none => rfl
      | some c => exact collapsedMeanV_not_unrec _ _ _
  | byCoord co =>
      rw [vm_byCoord_eval, isUnrecErr_bind_pure]
      cases hc : cube.coordByName co.name with
      | none => rfl
      | some c => exact collapsedMeanV_not_unrec _ _ _
  | byCube w' =>
      rw [vm_byCube_eval, isUnrecErr_bind_pure]
      cases hm : VCube.mul w'.stripZBounds cube.stripZBounds with
      | error e =>
          have h2 := mul_not_unrec w'.stripZBounds cube.stripZBounds
          rw [hm] at h2
          simp only [Except.bind]
          exact h2
      | ok prod =>
          simp only [Except.bind]
          cases hn : integrate prod m.z with
          | error e =>
              have h2 := integrate_not_unrec prod m.z
              rw [hn] at h2
              exact h2
          | ok num =>
              cases hd : integrate w' m.z with
              | error e =>
                  have h2 := integrate_not_unrec w' m.z
                  rw [hd] at h2
                  exact h2
              | ok den => rfl
  | other t => exact absurd rfl (h t)

/-- C4: `vertical_mean` produces the explicit `unrecognised type of
weight_by` rejection (naming the offending type) exactly when the weighting
argument is of none of the four accepted kinds — `None`, a coordinate name, a
coordinate object, a cube; for each accepted kind the corresponding averaging
algorithm is selected: plain MEAN collapse, MEAN collapse weighted by the
looked-up coordinate's point values, or the ratio of vertical integrals of
the bounds-stripped product and the weighting cube. -/
theorem vertical_mean_dispatch (cube : VCube) (m : Model) (wb : WeightBy) :
    (isUnrecErr (vertical_mean cube m wb).1 = true ↔ ∃ t, wb = WeightBy.other t) ∧
    (∀ t, (vertical_mean cube m (WeightBy.other t)).1 =
      .error (.unrecognisedWeight t)) ∧
    ((vertical_mean cube m WeightBy.none).1 =
      Except.map (fun v => v.rename ("vertical_mean_of_" ++ cube.name))
        (collapsedMeanV cube m.z Option.none)) ∧
    (∀ s c, cube.coordByName s = some c →
      (vertical_mean cube m (WeightBy.byName s)).1 =
        Except.map (fun v => v.rename ("vertical_mean_of_" ++ cube.name))
          (collapsedMeanV cube m.z (some c.points))) ∧
    (∀ co c, cube.coordByName co.name = some c →
      (vertical_mean cube m (WeightBy.byCoord co)).1 =
        Except.map (fun v => v.rename ("vertical_mean_of_" ++ cube.name))
          (collapsedMeanV cube m.z (some c.points))) ∧
    (∀ w' : VCube, (vertical_mean cube m (WeightBy.byCube w')).1 =
      Except.map (fun v => v.rename ("vertical_mean_of_" ++ cube.name))
        (Except.bind (VCube.mul w'.stripZBounds cube.stripZBounds) (fun prod =>
          Except.bind (integrate prod m.z) (fun num =>
            Except.bind (integrate w' m.z) (fun den =>
              pure (SCube.div num den)))))) := by
  refine ⟨⟨?_, ?_⟩, ?_, ?_, ?_, ?_, ?_⟩
  · intro hu
    by_contra hno
    push_neg at hno
    have hf := vm_not_unrec_of_not_other cube m wb hno
    rw [hf] at hu
    exact Bool.noConfusion hu
  · rintro ⟨t, rfl⟩
    rfl
  · intro t
    exact vm_other_eval cube m t
  · rw [vm_none_eval, except_bind_pure]
  · intro s c hc
    rw [vm_byName_eval, hc, except_bind_pure]
  · intro co c hc
    rw [vm_byCoord_eval, hc, except_bind_pure]
  · intro w'
    rw [vm_byCube_eval, except_bind_pure]

/-- Concrete cube for the C4 witness, with an auxiliary pressure
coordinate. -/
def cC4 : VCube :=
  ⟨"air_temperature", [1, 2, 3],
   ⟨"level_height", [0, 1, 2], Option.none, Units.base "m"⟩,
   [⟨"air_pressure", [7, 6, 5], Option.none, Units.base "Pa"⟩],
   Units.base "K"⟩

/-- Concrete weighting cube for the C4 witness. -/
def wC4 : VCube :=
  ⟨"air_density", [2, 2, 2],
   ⟨"level_height", [0, 1, 2], Option.none, Units.base "m"⟩, [],
   Units.base "kg m-3"⟩

/-- Witness for C4 at concrete inputs: the rejection fires on a non-accepted
type and names it, and each accepted kind selects its algorithm. -/
theorem vertical_mean_dispatch_witness :
    (vertical_mean cC4 um (WeightBy.other "<class 'int'>")).1 =
      .error (.unrecognisedWeight "<class 'int'>") ∧
    ((vertical_mean cC4 um WeightBy.none).1 =
      Except.map (fun v => v.rename ("vertical_mean_of_" ++ cC4.name))
        (collapsedMeanV cC4 um.z Option.none)) ∧
    ((vertical_mean cC4 um (WeightBy.byName "air_pressure")).1 =
      Except.map (fun v => v.rename ("vertical_mean_of_" ++ cC4.name))
        (collapsedMeanV cC4 um.z (some [7, 6, 5]))) ∧
    ((vertical_mean cC4 um
        (WeightBy.byCoord ⟨"air_pressure", [9, 9, 9], Option.none, Units.base "Pa"⟩)).1 =
      Except.map (fun v => v.rename ("vertical_mean_of_" ++ cC4.name))
        (collapsedMeanV cC4 um.z (some [7, 6, 5]))) ∧
    ((vertical_mean cC4 um (WeightBy.byCube wC4)).1 =
      Except.map (fun v => v.rename ("vertical_mean_of_" ++ cC4.name))
        (Except.bind (VCube.mul wC4.stripZBounds cC4.stripZBounds) (fun prod =>
          Except.bind (integrate prod um.z) (fun num =>
            Except.bind (integrate wC4 um.z) (fun den =>
              pure (SCube.div num den)))))) :=
  ⟨(vertical_mean_dispatch cC4 um (WeightBy.other "<class 'int'>")).2.1 "<class 'int'>",
   (vertical_mean_dispatch cC4 um WeightBy.none).2.2.1,
   (vertical_mean_dispatch cC4 um (WeightBy.byName "air_pressure")).2.2.2.1
     "air_pressure" ⟨"air_pressure", [7, 6, 5], Option.none, Units.base "Pa"⟩ (by decide),
   (vertical_mean_dispatch cC4 um
       (WeightBy.byCoord ⟨"air_pressure", [9, 9, 9], Option.none, Units.base "Pa"⟩)).2.2.2.2.1
     ⟨"air_pressure", [9, 9, 9], Option.none, Units.base "Pa"⟩
     ⟨"air_pressure", [7, 6, 5], Option.none, Units.base "Pa"⟩ (by decide),
   (vertical_mean_dispatch cC4 um (WeightBy.byCube wC4)).2.2.2.2.2 wC4⟩

/-! ### C9: `meridional_mean` as an explicit weighted mean -/

theorem getD_zipWith_add (a b : List ℚ) (j : ℕ) (ha : j < a.length) (hb : j < b.length) :
    (List.zipWith (· + ·) a b).getD j 0 = a.getD j 0 + b.getD j 0 := by
  induction a generalizing b j with
  | nil => simp at ha
  | cons x xs ih =>
      cases b with
      | nil => simp at hb
      | cons y ys =>
          cases j with
          | zero => simp
          | succ n =>
              simp only [List.zipWith_cons_cons, List.getD_cons_succ]
              exact ih ys n (by simpa using ha) (by simpa using hb)

theorem map_getD_range (l : List ℚ) :
    (List.range l.length).map (fun j => l.getD j 0) = l := by
  induction l with
  | nil => rfl
  | cons x xs ih =>
      rw [List.length_cons, List.range_succ_eq_map, List.map_cons]
      simp only [List.getD_cons_zero, List.map_map]
      have h2 : (List.range xs.length).map ((fun j => (x :: xs).getD j 0) ∘ Nat.succ) =
          (List.range xs.length).map (fun j => xs.getD j 0) :=
        List.map_congr_left (fun a _ => by simp [Function.comp, List.getD_cons_succ])
      rw [h2, ih]

theorem foldl_zipWith_add (w : ℕ) (rows : List (List ℚ)) (acc : List ℚ)
    (hacc : acc.length = w) (hrect : ∀ r ∈ rows, r.length = w) :
    rows.foldl (fun a r => List.zipWith (· + ·) a r) acc =
      (List.range w).map
        (fun j => acc.getD j 0 + (rows.map (fun r => r.getD j 0)).sum) := by
  induction rows generalizing acc with
  | nil =>
      simp only [List.foldl_nil, List.map_nil, List.sum_nil, add_zero]
      rw [← hacc]
      exact (map_getD_range acc).symm
  | cons r rs ih =>
      have hr : r.length = w := hrect r (by simp)
      have hacc2 : (List.zipWith (· + ·) acc r).length = w := by
        simp [List.length_zipWith, hacc, hr]
      rw [List.foldl_cons, ih _ hacc2 (fun q hq => hrect q (by simp [hq]))]
      apply List.map_congr_left
      intro j hj
      have hjw : j < w := List.mem_range.mp hj
      rw [getD_zipWith_add acc r j (by omega) (by omega)]
      simp [add_assoc]

theorem getD_replicate_zero (w j : ℕ) : (List.replicate w (0 : ℚ)).getD j 0 = 0 := by
  induction w generalizing j with
  | zero => simp
  | succ n ih =>
      cases j with
      | zero => simp [List.replicate]
      | succ k =>
          rw [List.replicate, List.getD_cons_succ]
          exact ih k

theorem colSums_eq (w : ℕ) (rows : List (List ℚ)) (hrect : ∀ r ∈ rows, r.length = w) :
    colSums w rows =
      (List.range w).map (fun j => (rows.map (fun r => r.getD j 0)).sum) := by
  unfold colSums
  rw [foldl_zipWith_add w rows _ (by simp) hrect]
  apply List.map_congr_left
  intro j hj
  rw [getD_replicate_zero, zero_add]

theorem getD_zipWith_mul_replicate (r : List ℚ) (cv : ℚ) (w j : ℕ)
    (hj : j < r.length) (hw : j < w) :
    (List.zipWith (· * ·) r (List.replicate w cv)).getD j 0 = r.getD j 0 * cv := by
  induction r generalizing w j with
  | nil => simp at hj
  | cons x xs ih =>
      cases w with
      | zero => omega
      | succ n =>
          cases j with
          | zero => simp [List.replicate]
          | succ k =>
              simp only [List.replicate, List.zipWith_cons_cons, List.getD_cons_succ]
              exact ih n k (by simpa using hj) (by omega)

theorem mulRows_rect (w : ℕ) (data : List (List ℚ)) (cs : List ℚ)
    (hrect : ∀ r ∈ data, r.length = w) :
    ∀ q ∈ mulRows data (cs.map (fun x => List.replicate w x)), q.length = w := by
  induction data generalizing cs with
  | nil => intro q hq; simp [mulRows] at hq
  | cons r rs ih =>
      cases cs with
      | nil => intro q hq; simp [mulRows] at hq
      | cons cv cvs =>
          intro q hq
          simp only [mulRows, List.map_cons, List.zipWith_cons_cons, List.mem_cons] at hq
          rcases hq with rfl | hq
          · simp [List.length_zipWith, hrect r (by simp)]
          · exact ih cvs (fun p hp => hrect p (by simp [hp])) q hq

theorem map_getD_mulRows (w : ℕ) (data : List (List ℚ)) (cs : List ℚ) (j : ℕ)
    (hrect : ∀ r ∈ data, r.length = w) (hj : j < w) :
    (mulRows data (cs.map (fun x => List.replicate w x))).map (fun r => r.getD j 0) =
      List.zipWith (fun r cv => r.getD j 0 * cv) data cs := by
  induction data generalizing cs with
  | nil => simp [mulRows]
  | cons r rs ih =>
      cases cs with
      | nil => simp [mulRows]
      | cons cv cvs =>
          simp only [mulRows, List.map_cons, List.zipWith_cons_cons, List.map_cons]
          congr 1
          · exact getD_zipWith_mul_replicate r cv w j
              (by rw [hrect r (by simp)]; exact hj) hj
          · exact ih cvs (fun p hp => hrect p (by simp [hp]))

/-- C9: for a cube with the model's latitude coordinate and rectangular data,
`meridional_mean` equals, entry by entry along the remaining axis, the sum
over the latitude axis of the data multiplied pointwise by the cosine of
latitude (broadcast across the other axis), divided by the sum of the
cosine-of-latitude weights.  `cosdeg` abstracts the float routine
`np.cos(np.deg2rad(·))` and is arbitrary. -/
theorem meridional_mean_eq (cosdeg : ℚ → ℚ) (c : GCube) (m : Model)
    (hname : c.lat.name = m.y)
    (_hlen : c.lat.points.length = c.data.length)
    (hrect : ∀ r ∈ c.data, r.length = c.ncols) :
    (meridional_mean cosdeg c m).1 =
      .ok ⟨"unknown",
           (List.range c.ncols).map (fun j =>
             (List.zipWith (fun r p => r.getD j 0 * cosdeg p) c.data c.lat.points).sum /
               (c.lat.points.map cosdeg).sum),
           c.lon, c.units⟩ := by
  have hsummed :
      colSums c.ncols
        (mulRows c.data (broadcast_to_shape (c.lat.points.map cosdeg) c.ncols)) =
      (List.range c.ncols).map (fun j =>
        (List.zipWith (fun r p => r.getD j 0 * cosdeg p) c.data c.lat.points).sum) := by
    simp only [broadcast_to_shape]
    rw [colSums_eq c.ncols _
      (mulRows_rect c.ncols c.data (c.lat.points.map cosdeg) hrect)]
    apply List.map_congr_left
    intro j hj
    rw [map_getD_mulRows c.ncols c.data (c.lat.points.map cosdeg) j hrect
      (List.mem_range.mp hj)]
    rw [List.zipWith_map_right]
  simp only [meridional_mean]
  rw [if_pos hname, hsummed, List.map_map]
  rfl

/-- Concrete cube for the C9 witness. -/
def cC9 : GCube :=
  ⟨"air_temperature", [[1, 2], [3, 4]],
   ⟨"latitude", [0, 60], Option.none, Units.base "degrees"⟩,
   ⟨"longitude", [0, 180], Option.none, Units.base "degrees"⟩,
   Units.base "K"⟩

/-- Witness for C9 at a concrete 2×2 cube and a concrete weight function. -/
theorem meridional_mean_eq_witness :
    (meridional_mean (fun q => 1 - q / 90) cC9 um).1 =
      .ok ⟨"unknown",
           (List.range cC9.ncols).map (fun j =>
             (List.zipWith (fun r p => r.getD j 0 * (1 - p / 90)) cC9.data
               cC9.lat.points).sum /
               (cC9.lat.points.map (fun q => 1 - q / 90)).sum),
           cC9.lon, cC9.units⟩ :=
  meridional_mean_eq (fun q => 1 - q / 90) cC9 um (by decide) (by decide) (by decide)

/-! ### C3: `spatial` weighting and aggregator lookup -/

theorem guessBounds_isSome (pts : List ℚ) (h : 2 ≤ pts.length) :
    (guessBounds pts).isSome := by
  cases pts with
  | nil => simp at h
  | cons p0 tl =>
      cases tl with
      | nil => simp at h
      | cons p1 rest => rfl

theorem ensureCoordBounds_isSome (c : Coord) (h : 2 ≤ c.points.length) :
    (ensureCoordBounds c).bounds.isSome := by
  unfold ensureCoordBounds
  by_cases hb : c.bounds.isSome
  · rw [if_pos hb]
    exact hb
  · rw [if_neg hb]
    cases hg : guessBounds c.points with
    | none =>
        have h2 := guessBounds_isSome c.points h
        rw [hg] at h2
        exact absurd h2 (by simp)
    | some b => rfl

theorem spatial_eval (registry : String → Option Aggregator) (cube : GCube)
    (aggr : String) (m : Model) :
    (spatial registry cube aggr m).1 =
      (if cube.lat.name = m.y ∧ cube.lon.name = m.x then
        match registry (strUpper aggr) with
        | Option.none => .error (.attr "iris.analysis" (strUpper aggr))
        | some ag =>
            if ((ensure_bounds cube).lat.bounds.isSome &&
                (ensure_bounds cube).lon.bounds.isSome) && ag.weighted then
              .ok ⟨ag.call (ensure_bounds cube).data
                     (some (area_weights_cube (ensure_bounds cube))),
                   cube.units, cube.name⟩
            else
              .ok ⟨ag.call (ensure_bounds cube).data Option.none, cube.units, cube.name⟩
       else .error (.coordNotFound (m.y ++ "," ++ m.x))) := rfl

/-- C3: `spatial` first ensures both horizontal coordinates carry bounds (so
they are present whenever each axis has at least two points); an aggregator
name whose upper-casing has no registry entry fails with the lookup
(attribute) error; and the collapse applies normalized area weights if and
only if both horizontal coordinates have bounds after the bounds-ensuring
step and the resolved aggregator is a weighted aggregator, collapsing
unweighted otherwise. -/
theorem spatial_weighting (registry : String → Option Aggregator) (cube : GCube)
    (aggr : String) (m : Model)
    (hy : cube.lat.name = m.y) (hx : cube.lon.name = m.x) :
    (2 ≤ cube.lat.points.length → 2 ≤ cube.lon.points.length →
      ((ensure_bounds cube).lat.bounds.isSome ∧
        (ensure_bounds cube).lon.bounds.isSome)) ∧
    (registry (strUpper aggr) = Option.none →
      (spatial registry cube aggr m).1 =
        .error (.attr "iris.analysis" (strUpper aggr))) ∧
    (∀ ag, registry (strUpper aggr) = some ag →
      (((ensure_bounds cube).lat.bounds.isSome ∧
          (ensure_bounds cube).lon.bounds.isSome ∧ ag.weighted = true) →
        (spatial registry cube aggr m).1 =
          .ok ⟨ag.call (ensure_bounds cube).data
                 (some (area_weights_cube (ensure_bounds cube))),
               cube.units, cube.name⟩) ∧
      (¬((ensure_bounds cube).lat.bounds.isSome ∧
          (ensure_bounds cube).lon.bounds.isSome ∧ ag.weighted = true) →
        (spatial registry cube aggr m).1 =
          .ok ⟨ag.call (ensure_bounds cube).data Option.none,
               cube.units, cube.name⟩)) := by
  refine ⟨?_, ?_, ?_⟩
  · intro h1 h2
    exact ⟨ensureCoordBounds_isSome cube.lat h1, ensureCoordBounds_isSome cube.lon h2⟩
  · intro hnone
    rw [spatial_eval, if_pos ⟨hy, hx⟩, hnone]
  · intro ag hag
    constructor
    · rintro ⟨h1, h2, h3⟩
      rw [spatial_eval, if_pos ⟨hy, hx⟩, hag]
      simp [h1, h2, h3]
    · intro hno
      rw [spatial_eval, if_pos ⟨hy, hx⟩, hag]
      have hcond : (((ensure_bounds cube).lat.bounds.isSome &&
          (ensure_bounds cube).lon.bounds.isSome) && ag.weighted) = false := by
        cases hb1 : (ensure_bounds cube).lat.bounds.isSome <;>
          cases hb2 : (ensure_bounds cube).lon.bounds.isSome <;>
            cases hb3 : ag.weighted <;> simp_all
      simp [hcond]

/-- A model MEAN aggregator for the C3 witness (a `WeightedAggregator`). -/
def meanAgg : Aggregator :=
  ⟨true, fun d w =>
    match w with
    | some ws => (List.zipWith (fun r q => (List.zipWith (· * ·) r q).sum) d ws).sum
    | Option.none => listMean d.flatten⟩

/-- A model MIN aggregator for the C3 witness (not weighted). -/
def minAgg : Aggregator := ⟨false, fun d _ => d.flatten.foldl min 0⟩

/-- A model of the `iris.analysis` registry for the C3 witness. -/
def regC3 : String → Option Aggregator := fun s =>
  if s = "MEAN" then some meanAgg
  else if s = "MIN" then some minAgg
  else Option.none

/-- Concrete cube for the C3 witness, with bounds already on both horizontal
coordinates. -/
def cC3 : GCube :=
  ⟨"air_temperature", [[1, 2], [3, 4]],
   ⟨"latitude", [30, 60], some [(15, 45), (45, 75)], Units.base "degrees"⟩,
   ⟨"longitude", [90, 270], some [(0, 180), (180, 360)], Units.base "degrees"⟩,
   Units.base "K"⟩

/-- Witness for C3: a weighted aggregator gets the normalized area weights, a
plain aggregator collapses unweighted, and an unknown name is a lookup
error. -/
theorem spatial_weighting_witness :
    ((spatial regC3 cC3 "mean" um).1 =
      .ok ⟨meanAgg.call (ensure_bounds cC3).data
             (some (area_weights_cube (ensure_bounds cC3))),
           cC3.units, cC3.name⟩) ∧
    ((spatial regC3 cC3 "min" um).1 =
      .ok ⟨minAgg.call (ensure_bounds cC3).data Option.none,
           cC3.units, cC3.name⟩) ∧
    ((spatial regC3 cC3 "variance" um).1 =
      .error (.attr "iris.analysis" (strUpper "variance"))) :=
  ⟨((spatial_weighting regC3 cC3 "mean" um (by decide) (by decide)).2.2 meanAgg
      rfl).1 ⟨by decide, by decide, rfl⟩,
   ((spatial_weighting regC3 cC3 "min" um (by decide) (by decide)).2.2 minAgg
      rfl).2 (fun h => nomatch h.2.2),
   (spatial_weighting regC3 cC3 "variance" um (by decide) (by decide)).2.1 rfl⟩

/-! ### C8: `cumsum` shape, final entry, and non-idempotence -/

theorem length_nancumsumAux (acc : ℚ) (l : List (Option ℚ)) :
    (nancumsumAux acc l).length = l.length := by
  induction l generalizing acc with
  | nil => rfl
  | cons x xs ih => simp [nancumsumAux, ih]

theorem getLast?_cons_ne {α : Type} (a : α) (l : List α) (h : l ≠ []) :
    (a :: l).getLast? = l.getLast? := by
  cases l with
  | nil => exact absurd rfl h
  | cons b bs => exact List.getLast?_cons_cons

theorem getLast?_nancumsumAux (acc : ℚ) (l : List (Option ℚ)) (h : l ≠ []) :
    (nancumsumAux acc l).getLast? = some (acc + nansum l) := by
  induction l generalizing acc with
  | nil => exact absurd rfl h
  | cons x xs ih =>
      cases xs with
      | nil => simp [nancumsumAux, nansum]
      | cons y ys =>
          have hne : nancumsumAux (acc + x.getD 0) (y :: ys) ≠ [] := by
            intro hl
            have h2 := length_nancumsumAux (acc + x.getD 0) (y :: ys)
            rw [hl] at h2
            simp at h2
          rw [show nancumsumAux acc (x :: y :: ys) =
                (acc + x.getD 0) :: nancumsumAux (acc + x.getD 0) (y :: ys) from rfl,
              getLast?_cons_ne _ _ hne, ih (acc + x.getD 0) (by simp)]
          simp [nansum, add_assoc]

theorem getLast?_map_some (l : List ℚ) :
    (l.map some).getLast? = l.getLast?.map some := by
  induction l with
  | nil => rfl
  | cons x xs ih =>
      cases xs with
      | nil => rfl
      | cons y ys =>
          simpa [List.getLast?_cons_cons] using ih

theorem cumsum_false_eval (cube : TCube) (axis : String) (m : Model) :
    (cumsum cube axis false m).1 =
      Except.bind (resolveCoord cube axis m)
        (fun _ => .ok { cube with
            data := (nancumsum cube.data).map some
            name := "cumulative_sum_of_" ++ cube.name ++ "_along_" ++ axis
            units := cube.units }) := rfl

/-- Concrete cube for C8, with a missing value on the time axis. -/
def c8cube : TCube :=
  ⟨"air_temperature", [some 1, Option.none, some 2],
   ⟨"time", [0, 1, 2], Option.none, Units.base "s", "t"⟩, Units.base "K"⟩

/-- `cumsum` of `c8cube` along `t`. -/
def c8once : TCube :=
  ⟨"cumulative_sum_of_air_temperature_along_t", [some 1, some 1, some 3],
   ⟨"time", [0, 1, 2], Option.none, Units.base "s", "t"⟩, Units.base "K"⟩

/-- `cumsum` of `c8once` along `t`: differs from `c8once`. -/
def c8twice : TCube :=
  ⟨"cumulative_sum_of_cumulative_sum_of_air_temperature_along_t_along_t",
   [some 1, some 2, some 5],
   ⟨"time", [0, 1, 2], Option.none, Units.base "s", "t"⟩, Units.base "K"⟩

/-- Evaluation of the first `cumsum` application on `c8cube`. -/
theorem cumsum_c8_eval1 : (cumsum c8cube "t" false um).1 = .ok c8once := by
  rw [cumsum_false_eval]
  norm_num +decide [resolveCoord, modelAttr, um, c8cube, c8once, nancumsum,
    nancumsumAux, Except.bind]

/-- Evaluation of the second `cumsum` application. -/
theorem cumsum_c8_eval2 : (cumsum c8once "t" false um).1 = .ok c8twice := by
  rw [cumsum_false_eval]
  norm_num +decide [resolveCoord, modelAttr, um, c8once, c8twice, nancumsum,
    nancumsumAux, Except.bind]

/-- C8: an unweighted `cumsum` preserves the data shape and its final entry
is the full-axis sum with missing values treated as zero; and the operation
is not idempotent: on a concrete cube, applying it twice differs from
applying it once. -/
theorem cumsum_shape_sum_not_idempotent :
    (∀ (cube : TCube) (axis : String) (m : Model) (res : TCube),
        (cumsum cube axis false m).1 = .ok res →
        res.data.length = cube.data.length ∧
        (cube.data ≠ [] → res.data.getLast? = some (some (nansum cube.data)))) ∧
    (∃ c1 c2 : TCube,
        (cumsum c8cube "t" false um).1 = .ok c1 ∧
        (cumsum c1 "t" false um).1 = .ok c2 ∧
        c2.data ≠ c1.data) := by
  constructor
  · intro cube axis m res h
    rw [cumsum_false_eval] at h
    cases hr : resolveCoord cube axis m with
    | error e => rw [hr] at h; exact absurd h (by simp [Except.bind])
    | ok c =>
        rw [hr] at h
        simp only [Except.bind] at h
        injection h with h
        subst h
        constructor
        · simp [nancumsum, List.length_map, length_nancumsumAux]
        · intro hne
          show ((nancumsum cube.data).map some).getLast? = _
          rw [getLast?_map_some, nancumsum, getLast?_nancumsumAux 0 cube.data hne]
          simp
  · exact ⟨c8once, c8twice, cumsum_c8_eval1, cumsum_c8_eval2, by decide⟩

/-- Witness for C8: the shape and final-entry facts at the concrete cube. -/
theorem cumsum_shape_sum_witness :
    c8once.data.length = c8cube.data.length ∧
    c8once.data.getLast? = some (some (nansum c8cube.data)) :=
  ⟨(cumsum_shape_sum_not_idempotent.1 c8cube "t" um c8once cumsum_c8_eval1).1,
   (cumsum_shape_sum_not_idempotent.1 c8cube "t" um c8once cumsum_c8_eval1).2
     (by decide)⟩

/-! ### C5: the statistics functions do not mutate their inputs -/

/-- C5: none of the five statistics functions mutates the caller's cube(s):
each returns its input cube(s) unchanged alongside the result.  Where the
code needs to write (stripping vertical bounds in `vertical_mean`, guessing
bounds in `cumsum` and in the bounds-ensuring step of `spatial`), it writes
to a copy, so the post-call state equals the input. -/
theorem stats_no_mutation :
    (∀ (registry : String → Option Aggregator) (c : GCube) (aggr : String) (m : Model),
        (spatial registry c aggr m).2 = c) ∧
    (∀ (c : GCube) (m : Model), (zonal_mean c m).2 = c) ∧
    (∀ (cosdeg : ℚ → ℚ) (c : GCube) (m : Model), (meridional_mean cosdeg c m).2 = c) ∧
    (∀ (c : VCube) (m : Model) (wb : WeightBy), (vertical_mean c m wb).2 = (c, wb)) ∧
    (∀ (c : TCube) (axis : String) (aw : Bool) (m : Model), (cumsum c axis aw m).2 = c) :=
  ⟨fun _ _ _ _ => rfl, fun _ _ => rfl, fun _ _ _ => rfl, fun _ _ _ => rfl,
   fun _ _ _ _ => rfl⟩

end Aeolus
